import Mathlib

/-
Shallow embedding of the scenario value generator of
`src/render.py` (repository possn/stress-strain-vni).

The reusable core of the script is the per-frame computation in the main
render loop (render.py lines 241-293): given the elapsed time `t = i / FPS`,
it selects one of three contiguous segments (healthy / low CRF / VNI) and
computes the functional residual capacity `crf`, the tidal volume `vt`,
the ratio `strain = vt / crf`, and the boolean `crack` that makes the
rupture drawing visible.  Machine floats are modelled by real numbers.
-/

noncomputable section

namespace Render

/-- render.py line 21: `FPS = 20`. -/
def FPS : ℕ := 20

/-- render.py line 22: `DURATION_S = 60`. -/
def DURATION_S : ℝ := 60

/-- render.py line 28: `VT_L = 0.45`. -/
def VT_L : ℝ := 0.45

/-- render.py line 29: `SAFE_LINE = 0.20`. -/
def SAFE_LINE : ℝ := 0.20

/-- render.py line 32: `T1 = 20.0` (healthy segment length, seconds). -/
def T1 : ℝ := 20.0

/-- render.py line 33: `T2 = 20.0` (low-CRF segment length, seconds). -/
def T2 : ℝ := 20.0

/-- render.py line 34: `T3 = 20.0` (VNI segment length, seconds). -/
def T3 : ℝ := 20.0

/-- render.py line 38: `CRF_HEALTHY = 2.5`. -/
def CRF_HEALTHY : ℝ := 2.5

/-- render.py line 39: `CRF_LOW = 1.0`. -/
def CRF_LOW : ℝ := 1.0

/-- render.py line 40: `CRF_VNI_START = 1.0`. -/
def CRF_VNI_START : ℝ := 1.0

/-- render.py line 41: `CRF_VNI_END = 1.8`. -/
def CRF_VNI_END : ℝ := 1.8

/-- render.py lines 47-49:
`def smoothstep(x): x = np.clip(x, 0.0, 1.0); return 0.5 - 0.5*np.cos(np.pi*x)`.
`np.clip(x, 0, 1)` is `max 0 (min x 1)`. -/
def smoothstep (x : ℝ) : ℝ :=
  0.5 - 0.5 * Real.cos (Real.pi * max 0 (min x 1))

/-- render.py lines 66-67: `def clamp01(x): return float(np.clip(x, 0.0, 1.0))`. -/
def clamp01 (x : ℝ) : ℝ := max 0 (min x 1)

/-- The transient per-frame value object the spec calls FrameState:
segment number (1 = healthy, 2 = low_crf, 3 = vni), `crf`, `vt`,
`strain` and the rupture flag `crack`, exactly the scalars the main
render loop computes before drawing. -/
structure FrameState where
  seg : ℕ
  crf : ℝ
  vt : ℝ
  strain : ℝ
  crack : Prop

/-- render.py lines 248-293, the per-frame scenario computation of the main
render loop, with the drawing-only fields (title, notes, badge) dropped:

* `if t < T1:` seg 1, `crf = CRF_HEALTHY`, `vt = VT_L`, `strain = vt / crf`,
  `crack = False`;
* `elif t < T1 + T2:` seg 2, `crf = CRF_LOW`, `vt = VT_L`,
  `strain = vt / crf`, `crack = True if strain > 0.35 else False`;
* `else:` seg 3, `x = (t - (T1 + T2)) / T3`,
  `crf = CRF_VNI_START + (CRF_VNI_END - CRF_VNI_START) * smoothstep(x)`,
  `vt = VT_L`, `strain = vt / crf`, `crack = False`.

The local variables `crf` and `vt` of each branch are inlined into the
`strain` and `crack` expressions. -/
def compute (t : ℝ) : FrameState :=
  if t < T1 then
    { seg := 1
      crf := CRF_HEALTHY
      vt := VT_L
      strain := VT_L / CRF_HEALTHY
      crack := False }
  else if t < T1 + T2 then
    { seg := 2
      crf := CRF_LOW
      vt := VT_L
      strain := VT_L / CRF_LOW
      crack := VT_L / CRF_LOW > 0.35 }
  else
    { seg := 3
      crf := CRF_VNI_START + (CRF_VNI_END - CRF_VNI_START) *
        smoothstep ((t - (T1 + T2)) / T3)
      vt := VT_L
      strain := VT_L / (CRF_VNI_START + (CRF_VNI_END - CRF_VNI_START) *
        smoothstep ((t - (T1 + T2)) / T3))
      crack := False }

/-- `crf` as a function of elapsed time. -/
def crfAt (t : ℝ) : ℝ := (compute t).crf

/-- `strain` as a function of elapsed time. -/
def strainAt (t : ℝ) : ℝ := (compute t).strain

/-- render.py lines 110-118 (`draw_strain_bar`): the bar-marker fraction
`vmin, vmax = 0.00, 0.60; frac = (strain_value - vmin) / (vmax - vmin);
frac = clamp01(frac)`. -/
def draw_strain_bar_frac (strain_value : ℝ) : ℝ :=
  clamp01 ((strain_value - 0.00) / (0.60 - 0.00))

/- ===================== helper lemmas ===================== -/

theorem compute_healthy {t : ℝ} (h : t < T1) :
    compute t =
      { seg := 1, crf := CRF_HEALTHY, vt := VT_L,
        strain := VT_L / CRF_HEALTHY, crack := False } := by
  simp only [compute, if_pos h]

theorem compute_low {t : ℝ} (h1 : ¬ t < T1) (h2 : t < T1 + T2) :
    compute t =
      { seg := 2, crf := CRF_LOW, vt := VT_L,
        strain := VT_L / CRF_LOW, crack := VT_L / CRF_LOW > 0.35 } := by
  simp only [compute, if_neg h1, if_pos h2]

theorem compute_vni {t : ℝ} (h1 : ¬ t < T1) (h2 : ¬ t < T1 + T2) :
    compute t =
      { seg := 3
        crf := CRF_VNI_START + (CRF_VNI_END - CRF_VNI_START) *
          smoothstep ((t - (T1 + T2)) / T3)
        vt := VT_L
        strain := VT_L / (CRF_VNI_START + (CRF_VNI_END - CRF_VNI_START) *
          smoothstep ((t - (T1 + T2)) / T3))
        crack := False } := by
  simp only [compute, if_neg h1, if_neg h2]

theorem smoothstep_nonneg (x : ℝ) : 0 ≤ smoothstep x := by
  have h := Real.cos_le_one (Real.pi * max 0 (min x 1))
  simp only [smoothstep]
  linarith

theorem smoothstep_le_one (x : ℝ) : smoothstep x ≤ 1 := by
  have h := Real.neg_one_le_cos (Real.pi * max 0 (min x 1))
  simp only [smoothstep]
  linarith

theorem smoothstep_zero : smoothstep 0 = 0 := by
  have h0 : max (0 : ℝ) (min 0 1) = 0 := by norm_num
  simp [smoothstep, h0]

theorem smoothstep_one : smoothstep 1 = 1 := by
  have h1 : max (0 : ℝ) (min 1 1) = 1 := by norm_num
  rw [smoothstep, h1, mul_one, Real.cos_pi]
  norm_num

theorem smoothstep_mono : Monotone smoothstep := by
  intro a b hab
  have hclip : max 0 (min a 1) ≤ max 0 (min b 1) :=
    max_le_max le_rfl (min_le_min hab le_rfl)
  have ha0 : (0 : ℝ) ≤ max 0 (min a 1) := le_max_left _ _
  have hb1 : max 0 (min b 1) ≤ 1 :=
    max_le (by norm_num) (min_le_right _ _)
  have hcos : Real.cos (Real.pi * max 0 (min b 1)) ≤
      Real.cos (Real.pi * max 0 (min a 1)) := by
    apply Real.cos_le_cos_of_nonneg_of_le_pi
    · positivity
    · calc Real.pi * max 0 (min b 1) ≤ Real.pi * 1 := by
            exact mul_le_mul_of_nonneg_left hb1 Real.pi_pos.le
        _ = Real.pi := mul_one _
    · exact mul_le_mul_of_nonneg_left hclip Real.pi_pos.le
  simp only [smoothstep]
  linarith

theorem vt_eq (t : ℝ) : (compute t).vt = VT_L := by
  by_cases ha : t < T1
  · rw [compute_healthy ha]
  · by_cases hb : t < T1 + T2
    · rw [compute_low ha hb]
    · rw [compute_vni ha hb]

theorem strainAt_eq (t : ℝ) : strainAt t = VT_L / crfAt t := by
  by_cases ha : t < T1
  · rw [strainAt, crfAt, compute_healthy ha]
  · by_cases hb : t < T1 + T2
    · rw [strainAt, crfAt, compute_low ha hb]
    · rw [strainAt, crfAt, compute_vni ha hb]

theorem seg_eq (t : ℝ) :
    (compute t).seg = if t < T1 then 1 else if t < T1 + T2 then 2 else 3 := by
  by_cases ha : t < T1
  · rw [compute_healthy ha, if_pos ha]
  · by_cases hb : t < T1 + T2
    · rw [compute_low ha hb, if_neg ha, if_pos hb]
    · rw [compute_vni ha hb, if_neg ha, if_neg hb]

theorem crfAt_vni {t : ℝ} (h : T1 + T2 ≤ t) :
    crfAt t = CRF_VNI_START + (CRF_VNI_END - CRF_VNI_START) *
      smoothstep ((t - (T1 + T2)) / T3) := by
  have h1 : ¬ t < T1 := by simp only [T1, T2] at h ⊢; linarith
  have h2 : ¬ t < T1 + T2 := not_lt.mpr h
  rw [crfAt, compute_vni h1 h2]

theorem crfAt_bounds (t : ℝ) : CRF_LOW ≤ crfAt t ∧ crfAt t ≤ CRF_HEALTHY := by
  by_cases ha : t < T1
  · rw [crfAt, compute_healthy ha]
    norm_num [CRF_LOW, CRF_HEALTHY]
  · by_cases hb : t < T1 + T2
    · rw [crfAt, compute_low ha hb]
      norm_num [CRF_LOW, CRF_HEALTHY]
    · rw [crfAt, compute_vni ha hb]
      have hs0 := smoothstep_nonneg ((t - (T1 + T2)) / T3)
      have hs1 := smoothstep_le_one ((t - (T1 + T2)) / T3)
      simp only [CRF_LOW, CRF_HEALTHY, CRF_VNI_START, CRF_VNI_END]
      constructor <;> nlinarith

theorem crfAt_pos (t : ℝ) : 0 < crfAt t := by
  have h := (crfAt_bounds t).1
  simp only [CRF_LOW] at h
  linarith

theorem strainAt_bounds (t : ℝ) : 0.18 ≤ strainAt t ∧ strainAt t ≤ 0.45 := by
  obtain ⟨hl, hu⟩ := crfAt_bounds t
  have hpos := crfAt_pos t
  rw [strainAt_eq]
  simp only [CRF_LOW, CRF_HEALTHY] at hl hu
  constructor
  · calc (0.18 : ℝ) = VT_L / 2.5 := by norm_num [VT_L]
      _ ≤ VT_L / crfAt t := by
          apply div_le_div_of_nonneg_left _ hpos hu
          norm_num [VT_L]
  · calc VT_L / crfAt t ≤ VT_L / 1.0 := by
          apply div_le_div_of_nonneg_left _ (by norm_num) hl
          norm_num [VT_L]
      _ = 0.45 := by norm_num [VT_L]

theorem smoothstep_continuous : Continuous smoothstep := by
  show Continuous fun x : ℝ => 0.5 - 0.5 * Real.cos (Real.pi * max 0 (min x 1))
  have h1 : Continuous fun x : ℝ => max 0 (min x 1) :=
    continuous_const.max (continuous_id.min continuous_const)
  have h2 : Continuous fun x : ℝ => Real.cos (Real.pi * max 0 (min x 1)) :=
    Real.continuous_cos.comp (continuous_const.mul h1)
  exact continuous_const.sub (continuous_const.mul h2)

theorem crfAt_start_vni : crfAt (T1 + T2) = CRF_LOW := by
  rw [crfAt_vni le_rfl, sub_self, zero_div, smoothstep_zero]
  norm_num [CRF_VNI_START, CRF_VNI_END, CRF_LOW]

theorem crfAt_end_vni : crfAt DURATION_S = CRF_VNI_END := by
  rw [crfAt_vni (by norm_num [T1, T2, DURATION_S])]
  have hx : (DURATION_S - (T1 + T2)) / T3 = 1 := by
    norm_num [DURATION_S, T1, T2, T3]
  rw [hx, smoothstep_one]
  norm_num [CRF_VNI_START, CRF_VNI_END]

theorem crfAt_low {t : ℝ} (hlo : T1 ≤ t) (hhi : t < T1 + T2) :
    crfAt t = CRF_LOW := by
  rw [crfAt, compute_low (not_lt.mpr hlo) hhi]

theorem crfAt_healthy {t : ℝ} (h : t < T1) : crfAt t = CRF_HEALTHY := by
  rw [crfAt, compute_healthy h]

theorem crfAt_continuousOn :
    ContinuousOn crfAt (Set.Icc (T1 + T2) DURATION_S) := by
  have hg : Continuous fun t : ℝ => CRF_VNI_START +
      (CRF_VNI_END - CRF_VNI_START) * smoothstep ((t - (T1 + T2)) / T3) :=
    continuous_const.add (continuous_const.mul
      (smoothstep_continuous.comp
        ((continuous_id.sub continuous_const).div_const T3)))
  exact hg.continuousOn.congr fun x hx => crfAt_vni hx.1

theorem crfAt_monotoneOn :
    MonotoneOn crfAt (Set.Icc (T1 + T2) DURATION_S) := by
  intro a ha b hb hab
  rw [crfAt_vni ha.1, crfAt_vni hb.1]
  have hx : (a - (T1 + T2)) / T3 ≤ (b - (T1 + T2)) / T3 :=
    (div_le_div_iff_of_pos_right (show (0 : ℝ) < T3 by norm_num [T3])).mpr
      (by linarith)
  have hss := smoothstep_mono hx
  simp only [CRF_VNI_START, CRF_VNI_END]
  linarith

theorem strainAt_antitoneOn :
    AntitoneOn strainAt (Set.Icc (T1 + T2) DURATION_S) := by
  intro a ha b hb hab
  rw [strainAt_eq, strainAt_eq]
  exact div_le_div_of_nonneg_left (by norm_num [VT_L]) (crfAt_pos a)
    (crfAt_monotoneOn ha hb hab)

/-- C1: for every elapsed time t in [0, 60) (the total animation duration),
the FrameState computed for t satisfies strain(t) = tidal_volume(t) / crf(t),
and strain(t) ≥ 0. -/
theorem C1_strain_ratio_nonneg (t : ℝ) (h0 : 0 ≤ t) (h1 : t < DURATION_S) :
    (compute t).strain = (compute t).vt / (compute t).crf ∧
      0 ≤ (compute t).strain := by
  constructor
  · by_cases ha : t < T1
    · rw [compute_healthy ha]
    · by_cases hb : t < T1 + T2
      · rw [compute_low ha hb]
      · rw [compute_vni ha hb]
  · have h : (compute t).strain = strainAt t := rfl
    rw [h, strainAt_eq]
    exact div_nonneg (by norm_num [VT_L]) (crfAt_pos t).le

theorem C1_witness :
    (compute 10).strain = (compute 10).vt / (compute 10).crf ∧
      0 ≤ (compute 10).strain :=
  C1_strain_ratio_nonneg 10 (by norm_num) (by norm_num [DURATION_S])

/-- C4: the phase function is total on [0, 60): the three segments are
contiguous, cover the whole duration with no gap and no overlap, and change
exactly at t = 20 and t = 40 (seg 1 = healthy for t < 20, seg 2 = low_crf
for 20 ≤ t < 40, seg 3 = vni for 40 ≤ t < 60). -/
theorem C4_phase_partition (t : ℝ) (h0 : 0 ≤ t) (h1 : t < DURATION_S) :
    ((compute t).seg = 1 ↔ t < T1) ∧
    ((compute t).seg = 2 ↔ T1 ≤ t ∧ t < T1 + T2) ∧
    ((compute t).seg = 3 ↔ T1 + T2 ≤ t) := by
  rw [seg_eq]
  by_cases ha : t < T1
  · rw [if_pos ha]
    have hb : t < T1 + T2 := by simp only [T1, T2] at ha ⊢; linarith
    refine ⟨⟨fun _ => ha, fun _ => rfl⟩, ?_, ?_⟩
    · exact ⟨fun hc => absurd hc (by norm_num),
        fun hc => absurd ha (not_lt.mpr hc.1)⟩
    · exact ⟨fun hc => absurd hc (by norm_num),
        fun hc => absurd hb (not_lt.mpr hc)⟩
  · by_cases hb : t < T1 + T2
    · rw [if_neg ha, if_pos hb]
      refine ⟨?_, ⟨fun _ => ⟨not_lt.mp ha, hb⟩, fun _ => rfl⟩, ?_⟩
      · exact ⟨fun hc => absurd hc (by norm_num), fun hc => absurd hc ha⟩
      · exact ⟨fun hc => absurd hc (by norm_num),
          fun hc => absurd hb (not_lt.mpr hc)⟩
    · rw [if_neg ha, if_neg hb]
      refine ⟨?_, ?_, ⟨fun _ => not_lt.mp hb, fun _ => rfl⟩⟩
      · exact ⟨fun hc => absurd hc (by norm_num), fun hc => absurd hc ha⟩
      · exact ⟨fun hc => absurd hc (by norm_num), fun hc => absurd hc.2 hb⟩

theorem C4_witness :
    ((compute 30).seg = 1 ↔ (30 : ℝ) < T1) ∧
    ((compute 30).seg = 2 ↔ T1 ≤ (30 : ℝ) ∧ (30 : ℝ) < T1 + T2) ∧
    ((compute 30).seg = 3 ↔ T1 + T2 ≤ (30 : ℝ)) :=
  C4_phase_partition 30 (by norm_num) (by norm_num [DURATION_S])

/-- C6: for every elapsed time t in [0, 60), crf(t) never reaches zero (it is
bounded below by the positive floor CRF_LOW = 1.0), so the division defining
strain is well-defined and strain(t) is finite and non-negative; the
degenerate case crf ≤ 0 is unreachable. -/
theorem C6_crf_never_zero (t : ℝ) (h0 : 0 ≤ t) (h1 : t < DURATION_S) :
    CRF_LOW ≤ (compute t).crf ∧ 0 < (compute t).crf ∧
      (compute t).crf ≠ 0 ∧ 0 ≤ (compute t).strain := by
  have hb := (crfAt_bounds t).1
  have hp := crfAt_pos t
  have hs : (compute t).strain = strainAt t := rfl
  refine ⟨hb, hp, ne_of_gt hp, ?_⟩
  rw [hs, strainAt_eq]
  exact div_nonneg (by norm_num [VT_L]) hp.le

theorem C6_witness :
    CRF_LOW ≤ (compute 45).crf ∧ 0 < (compute 45).crf ∧
      (compute 45).crf ≠ 0 ∧ 0 ≤ (compute 45).strain :=
  C6_crf_never_zero 45 (by norm_num) (by norm_num [DURATION_S])

/-- C8 (implicit): tidal volume is the constant 0.45 for every elapsed time
t in [0, 60) — identical in all three phases, never oscillating — so strain
depends on t only through crf. -/
theorem C8_vt_constant (t : ℝ) (h0 : 0 ≤ t) (h1 : t < DURATION_S) :
    (compute t).vt = VT_L ∧ VT_L = 0.45 ∧
      (compute t).strain = VT_L / (compute t).crf := by
  refine ⟨vt_eq t, by norm_num [VT_L], ?_⟩
  have hs : (compute t).strain = strainAt t := rfl
  rw [hs, strainAt_eq, crfAt]

theorem C8_witness :
    (compute 25).vt = VT_L ∧ VT_L = 0.45 ∧
      (compute 25).strain = VT_L / (compute 25).crf :=
  C8_vt_constant 25 (by norm_num) (by norm_num [DURATION_S])

/-- C2 counterexample: in the code rupture is visible from the very first
instant of the low_crf phase (the fixed threshold 0.35 is compared against
strain, which is the constant 0.45, not against an intra-phase ease-in
progress fraction), so no threshold θ ≥ 0 on the cosine ease-in fraction
smoothstep((t - T1) / T2) characterises when crack becomes true: at t = 20
that fraction is 0, yet crack is already true. -/
theorem C2_counterexample :
    ¬ ∃ θ : ℝ, 0 ≤ θ ∧ ∀ t : ℝ, T1 ≤ t → t < T1 + T2 →
      ((compute t).crack ↔ θ < smoothstep ((t - T1) / T2)) := by
  rintro ⟨θ, hθ, h⟩
  have h20 := h 20 (by norm_num [T1]) (by norm_num [T1, T2])
  have hcrack : (compute 20).crack := by
    have h1 : ¬ (20 : ℝ) < T1 := by norm_num [T1]
    have h2 : (20 : ℝ) < T1 + T2 := by norm_num [T1, T2]
    rw [compute_low h1 h2]
    show VT_L / CRF_LOW > 0.35
    norm_num [VT_L, CRF_LOW]
  have hss : smoothstep (((20 : ℝ) - T1) / T2) = 0 := by
    have hx : ((20 : ℝ) - T1) / T2 = 0 := by norm_num [T1, T2]
    rw [hx, smoothstep_zero]
  have hlt := h20.mp hcrack
  rw [hss] at hlt
  linarith

/-- C2 amended: rupture_visible(t) is false for every elapsed time t outside
the low_crf phase [20, 40), and within the low_crf phase it is true from the
very first instant (strain is the constant 0.45, which already exceeds the
fixed strain threshold 0.35); there is no intra-phase ease-in delay. -/
theorem C2_amended_rupture (t : ℝ) :
    ((t < T1 ∨ T1 + T2 ≤ t) → ¬ (compute t).crack) ∧
    (T1 ≤ t → t < T1 + T2 → (compute t).crack) := by
  constructor
  · rintro (h | h)
    · rw [compute_healthy h]
      show ¬ False
      exact not_false
    · have h1 : ¬ t < T1 := by simp only [T1, T2] at h ⊢; linarith
      have h2 : ¬ t < T1 + T2 := not_lt.mpr h
      rw [compute_vni h1 h2]
      show ¬ False
      exact not_false
  · intro hlo hhi
    rw [compute_low (not_lt.mpr hlo) hhi]
    show VT_L / CRF_LOW > 0.35
    norm_num [VT_L, CRF_LOW]

theorem C2_amended_witness : ¬ (compute 5).crack ∧ (compute 25).crack :=
  ⟨(C2_amended_rupture 5).1 (Or.inl (by norm_num [T1])),
   (C2_amended_rupture 25).2 (by norm_num [T1]) (by norm_num [T1, T2])⟩

/-- C3: throughout the vni phase (t in [40, 60]), crf is a continuous and
non-decreasing function of t, and it reaches the configured target
CRF_VNI_END = 1.8 at the segment's end (when the segment-progress fraction
reaches 1, at t = 60). -/
theorem C3_vni_crf_continuous_monotone :
    ContinuousOn crfAt (Set.Icc (T1 + T2) DURATION_S) ∧
    MonotoneOn crfAt (Set.Icc (T1 + T2) DURATION_S) ∧
    crfAt DURATION_S = CRF_VNI_END ∧ CRF_VNI_END = 1.8 :=
  ⟨crfAt_continuousOn, crfAt_monotoneOn, crfAt_end_vni,
    by norm_num [CRF_VNI_END]⟩

/-- C5: crf is continuous at the low_crf→vni boundary t = 40 (the left
limit along [20, 40) and the value at the start of the vni segment both
equal CRF_LOW = 1.0), while at the healthy→low_crf boundary t = 20 it jumps
discontinuously: the left limit is CRF_HEALTHY = 2.5 but the value is
CRF_LOW = 1.0. -/
theorem C5_boundary_jumps :
    crfAt (T1 + T2) = CRF_LOW ∧
    Filter.Tendsto crfAt (nhdsWithin (T1 + T2) (Set.Iio (T1 + T2)))
      (nhds CRF_LOW) ∧
    crfAt T1 = CRF_LOW ∧
    Filter.Tendsto crfAt (nhdsWithin T1 (Set.Iio T1)) (nhds CRF_HEALTHY) ∧
    CRF_HEALTHY = 2.5 ∧ CRF_LOW = 1.0 ∧ CRF_HEALTHY ≠ CRF_LOW := by
  have hmem : T1 + T2 ∈ Set.Ioc T1 (T1 + T2) := by
    constructor
    · norm_num [T1, T2]
    · exact le_rfl
  have hev : ∀ᶠ x in nhdsWithin (T1 + T2) (Set.Iio (T1 + T2)),
      crfAt x = CRF_LOW := by
    filter_upwards [Ioo_mem_nhdsWithin_Iio hmem] with x hx
    exact crfAt_low hx.1.le hx.2
  have hev2 : ∀ᶠ x in nhdsWithin T1 (Set.Iio T1),
      crfAt x = CRF_HEALTHY := by
    filter_upwards [self_mem_nhdsWithin] with x hx
    exact crfAt_healthy hx
  refine ⟨crfAt_start_vni, ?_, ?_, ?_, by norm_num [CRF_HEALTHY],
    by norm_num [CRF_LOW], by norm_num [CRF_HEALTHY, CRF_LOW]⟩
  · exact Filter.Tendsto.congr' (hev.mono fun x hx => hx.symm)
      tendsto_const_nhds
  · exact crfAt_low le_rfl (by norm_num [T1, T2])
  · exact Filter.Tendsto.congr' (hev2.mono fun x hx => hx.symm)
      tendsto_const_nhds

/-- C7: with healthy crf = 2.5 and tidal volume 0.45, strain is exactly
0.18; with low crf = 1.0 and the same tidal volume, strain is exactly 0.45;
during the vni phase, as crf is eased from 1.0 to 1.8, strain is eased
monotonically (antitone in t) from 0.45 at t = 40 down to 0.25 at t = 60. -/
theorem C7_numeric_examples :
    strainAt 0 = 0.18 ∧ strainAt 20 = 0.45 ∧
    strainAt (T1 + T2) = 0.45 ∧ strainAt DURATION_S = 0.25 ∧
    AntitoneOn strainAt (Set.Icc (T1 + T2) DURATION_S) := by
  refine ⟨?_, ?_, ?_, ?_, strainAt_antitoneOn⟩
  · rw [strainAt_eq, crfAt_healthy (by norm_num [T1])]
    norm_num [VT_L, CRF_HEALTHY]
  · rw [strainAt_eq,
      crfAt_low (by norm_num [T1]) (by norm_num [T1, T2])]
    norm_num [VT_L, CRF_LOW]
  · rw [strainAt_eq, crfAt_start_vni]
    norm_num [VT_L, CRF_LOW]
  · rw [strainAt_eq, crfAt_end_vni]
    norm_num [VT_L, CRF_VNI_END]

/-- C9 (implicit): within the low_crf phase strain is the constant 0.45,
which exceeds the crack threshold 0.35, so rupture_visible is true for every
elapsed time t in [20, 40), from the very first instant of the phase, with
no intra-phase delay. -/
theorem C9_rupture_whole_low_phase (t : ℝ) (hlo : T1 ≤ t)
    (hhi : t < T1 + T2) :
    (compute t).strain = 0.45 ∧ (compute t).strain > 0.35 ∧
      (compute t).crack := by
  rw [compute_low (not_lt.mpr hlo) hhi]
  refine ⟨?_, ?_, ?_⟩
  · show VT_L / CRF_LOW = 0.45
    norm_num [VT_L, CRF_LOW]
  · show VT_L / CRF_LOW > 0.35
    norm_num [VT_L, CRF_LOW]
  · show VT_L / CRF_LOW > 0.35
    norm_num [VT_L, CRF_LOW]

theorem C9_witness :
    (compute 20).strain = 0.45 ∧ (compute 20).strain > 0.35 ∧
      (compute 20).crack :=
  C9_rupture_whole_low_phase 20 (by norm_num [T1]) (by norm_num [T1, T2])

/-- C10 (implicit): for every elapsed time t in [0, 60), crf lies in
[1.0, 2.5] and strain lies in [0.18, 0.45]; in particular strain never
exceeds the gauge maximum 0.60, so the strain-bar fraction
(strain - 0) / (0.60 - 0) is never clamped by clamp01. -/
theorem C10_gauge_never_clamped (t : ℝ) (h0 : 0 ≤ t) (h1 : t < DURATION_S) :
    (CRF_LOW ≤ (compute t).crf ∧ (compute t).crf ≤ CRF_HEALTHY) ∧
    (0.18 ≤ (compute t).strain ∧ (compute t).strain ≤ 0.45) ∧
    (compute t).strain ≤ 0.60 ∧
    draw_strain_bar_frac ((compute t).strain) =
      ((compute t).strain - 0.00) / (0.60 - 0.00) := by
  obtain ⟨hl, hu⟩ := crfAt_bounds t
  obtain ⟨hsl, hsu⟩ := strainAt_bounds t
  have hs : (compute t).strain = strainAt t := rfl
  have hc : (compute t).crf = crfAt t := rfl
  rw [hs, hc]
  refine ⟨⟨hl, hu⟩, ⟨hsl, hsu⟩, by linarith, ?_⟩
  rw [draw_strain_bar_frac, clamp01]
  have h60 : (strainAt t - 0.00) / (0.60 - 0.00) ≤ 1 := by
    rw [div_le_one (by norm_num)]
    linarith
  have h00 : (0 : ℝ) ≤ (strainAt t - 0.00) / (0.60 - 0.00) := by
    apply div_nonneg <;> linarith
  rw [min_eq_left h60, max_eq_right h00]

theorem C10_witness :
    (CRF_LOW ≤ (compute 12).crf ∧ (compute 12).crf ≤ CRF_HEALTHY) ∧
    (0.18 ≤ (compute 12).strain ∧ (compute 12).strain ≤ 0.45) ∧
    (compute 12).strain ≤ 0.60 ∧
    draw_strain_bar_frac ((compute 12).strain) =
      ((compute 12).strain - 0.00) / (0.60 - 0.00) :=
  C10_gauge_never_clamped 12 (by norm_num) (by norm_num [DURATION_S])

end Render

end
